import Mathlib

/-!
Verification of the OER_Phoenix harvest pipeline and hybrid ranking engine.

This file gives a shallow embedding, in Lean 4, of the algorithmic core of
the repository (`src/resources/harvesters/*.py` and
`src/resources/services/search_engine.py`) and proves or refutes the frozen
specification claims about it.

Conventions of the embedding:
* Python strings become `String`; a missing dict key becomes `Option String`
  where the code distinguishes "absent" from "empty".
* Python float scores become `ℚ` (the code only ever multiplies/divides by
  small decimal constants, so rational arithmetic is exact).
* Fallible Python code (raised exceptions) becomes `Except String _`.
* The database is modelled as an ordered `List Resource`; Django's
  `update_or_create` becomes find-first-and-replace or append.
* Each per-record persistence failure (a caught DB exception in the upsert
  loop) is driven by an oracle `fails : Nat → Bool` indexed by the record's
  position, modelling `PersistenceError` nondeterminism.
-/

namespace OERPhoenix

/-! ## Python string primitives

The Lean core `String` functions (`trim`, `toLower`, `split`, ...) do not
reduce inside the kernel, so the Python string operations the code uses are
re-implemented structurally over the underlying character list.  All are
code-point-faithful to their CPython counterparts on the inputs this
pipeline handles. -/

/-- Python `str.lower()`. -/
def pyLower (s : String) : String := ⟨s.data.map Char.toLower⟩

/-- Python `str.strip()`. -/
def pyTrim (s : String) : String :=
  ⟨((s.data.dropWhile Char.isWhitespace).reverse.dropWhile
      Char.isWhitespace).reverse⟩

/-- Python `str.startswith(pre)`. -/
def pyStartsWith (s pre : String) : Bool := pre.data.isPrefixOf s.data

/-- Python `needle in hay` (substring containment). -/
def pyContains (hay needle : String) : Bool :=
  (List.range (hay.data.length + 1)).any
    (fun i => needle.data.isPrefixOf (hay.data.drop i))

/-- Helper for `pySplitWs`: accumulate the current token (reversed). -/
def pySplitWsAux : List Char → List Char → List String
  | [], acc => if acc.isEmpty then [] else [⟨acc.reverse⟩]
  | c :: cs, acc =>
    if c.isWhitespace then
      if acc.isEmpty then pySplitWsAux cs []
      else ⟨acc.reverse⟩ :: pySplitWsAux cs []
    else pySplitWsAux cs (c :: acc)

/-- Python `str.split()` with no argument: split on whitespace runs,
producing no empty tokens. -/
def pySplitWs (s : String) : List String := pySplitWsAux s.data []

/-! ## Retry/backoff client — `resources/harvesters/utils.py`, `request_with_retry` -/

/-- Outcome of one `requests.get`/`head`/`request` call: either an HTTP
response with a status code, or a network-level `requests.RequestException`. -/
inductive HttpOutcome where
  | resp (status : Nat)
  | exn
deriving DecidableEq, Repr

/-- Observable trace of `request_with_retry`: how many attempts were made,
the backoff sleeps performed (in seconds, in order), and the final result
(`.ok status` for a returned response, `.error msg` for a raised exception). -/
structure RetryTrace where
  attemptsMade : Nat
  sleeps : List Nat
  result : Except String Nat
deriving Repr

/-- The `while attempts < max_attempts` loop of `request_with_retry`,
structured on the number of attempts still allowed
(`remaining = max_attempts - attempts`).  `server n` is the outcome of the
n-th HTTP call (`n` counted from 1, matching the `attempts` counter in the
Python code). -/
def retryLoop (server : Nat → HttpOutcome) (backoff : Nat) :
    Nat → Nat → Option String → List Nat → RetryTrace
  | 0, attempts, lastExc, sleeps =>
    { attemptsMade := attempts, sleeps := sleeps,
      result := .error (lastExc.getD "Unknown request failure") }
  | remaining + 1, attempts, _lastExc, sleeps =>
    let a := attempts + 1
    match server a with
    | .resp s =>
      if s == 429 || (500 ≤ s && s < 600) then
        retryLoop server backoff remaining a
          (some (s!"status {s}")) (sleeps ++ [backoff ^ a])
      else
        { attemptsMade := a, sleeps := sleeps, result := .ok s }
    | .exn =>
      retryLoop server backoff remaining a
        (some "RequestException") (sleeps ++ [backoff ^ a])

/-- `request_with_retry(method, url, ..., max_attempts, backoff_factor)`:
the loop starting from zero attempts. -/
def request_with_retry (server : Nat → HttpOutcome)
    (maxAttempts : Nat := 3) (backoff : Nat := 2) : RetryTrace :=
  retryLoop server backoff maxAttempts 0 none []

/-! ## The resource store and the generic upsert —
`resources/harvesters/base_harvester.py` -/

/-- A persisted `OERResource` row (the fields touched by the harvest
pipeline; unset text fields are `""`, matching Django blank defaults). -/
structure Resource where
  source : Nat
  url : String
  title : String
  description : String
  license : String
  publisher : String
  author : String
  language : String
  resource_type : String
  subject : String
  normalised_type : Option String
  isbn : String
  issn : String
  oclc_number : String
  doi : String
  is_active : Bool
deriving DecidableEq, Repr

/-- A fresh row with Django field defaults, before any field assignment. -/
def Resource.blank (src : Nat) : Resource :=
  { source := src, url := "", title := "", description := "", license := "",
    publisher := "", author := "", language := "", resource_type := "",
    subject := "", normalised_type := none, isbn := "", issn := "",
    oclc_number := "", doi := "", is_active := true }

/-- A harvested record dict as produced by the adapters (all keys present;
empty string for missing data), matching the dicts built in
`fetch_and_process_records` / `process_record`. -/
structure RecordData where
  title : String
  description : String
  url : String
  license : String
  publisher : String
  author : String
  language : String
  resource_type : String
deriving DecidableEq, Repr

/-- `_t(v, maxlen)` in `BaseHarvester.upsert_resource`: truncate a string to
a maximum length. -/
def truncStr (s : String) (maxlen : Nat) : String :=
  if s.data.length > maxlen then ⟨s.data.take maxlen⟩ else s

/-- Replace the first list element satisfying `p` by `f` applied to it. -/
def replaceFirst (p : Resource → Bool) (f : Resource → Resource) :
    List Resource → List Resource
  | [] => []
  | r :: rs => if p r then f r :: rs else r :: replaceFirst p f rs

/-- `BaseHarvester.upsert_resource`: Django
`update_or_create(url=..., defaults=...)` — the match key is the URL ALONE,
and `defaults` (which includes `source`) is applied wholesale to the matched
row. Returns the new store and the `created` flag. -/
def upsert_resource (src : Nat) (store : List Resource) (rec : RecordData) :
    List Resource × Bool :=
  let u := truncStr rec.url 500
  let applyDefaults : Resource → Resource := fun r =>
    { r with
      title := truncStr rec.title 500
      description := rec.description
      license := truncStr rec.license 100
      publisher := truncStr rec.publisher 200
      author := truncStr rec.author 200
      language := truncStr rec.language 50
      resource_type := truncStr rec.resource_type 100
      source := src }
  if store.any (fun r => r.url == u) then
    (replaceFirst (fun r => r.url == u) applyDefaults store, false)
  else
    (store ++ [applyDefaults { Resource.blank src with url := u }], true)

/-- The counters of a finished `HarvestJob`. -/
structure HarvestJobResult where
  status : String
  resources_found : Nat
  resources_created : Nat
  resources_updated : Nat
  resources_failed : Nat
deriving DecidableEq, Repr

/-- Accumulated counters and store of an upsert loop. -/
structure UpsertLoopOut where
  created : Nat
  updated : Nat
  failed : Nat
  store : List Resource
deriving Repr

/-- The upsert loop of `BaseHarvester.harvest`: each record either upserts
(counting created/updated) or hits a caught exception (`fails idx = true`),
which increments `resources_failed` and leaves the store unchanged. -/
def baseHarvestLoop (src : Nat) (fails : Nat → Bool) :
    List RecordData → Nat → List Resource → UpsertLoopOut
  | [], _, store => ⟨0, 0, 0, store⟩
  | r :: rs, idx, store =>
    if fails idx then
      let out := baseHarvestLoop src fails rs (idx + 1) store
      { out with failed := out.failed + 1 }
    else
      let pr := upsert_resource src store r
      let out := baseHarvestLoop src fails rs (idx + 1) pr.1
      if pr.2 then { out with created := out.created + 1 }
      else { out with updated := out.updated + 1 }

/-- `BaseHarvester.harvest` after a successful `fetch_and_process_records`:
cap the record list when `max_resources > 0`, run the upsert loop, and
finalize the job.  The status is set to `"completed"` unconditionally. -/
def baseHarvest (src : Nat) (fails : Nat → Bool) (store : List Resource)
    (records : List RecordData) (maxResources : Nat) :
    HarvestJobResult × List Resource :=
  let recs := if maxResources > 0 then records.take maxResources else records
  let out := baseHarvestLoop src fails recs 0 store
  ({ status := "completed", resources_found := recs.length,
     resources_created := out.created, resources_updated := out.updated,
     resources_failed := out.failed },
   out.store)

/-! ## KBART adapter — `resources/harvesters/kbart_harvester.py` -/

/-- One KBART row from `csv.DictReader` restricted to the columns the
harvester consults (`""` stands for an absent or empty cell). -/
structure KBARTRow where
  publication_title : String
  title : String
  article_title : String
  title_url : String
  online_identifier : String
  url : String
  first_author : String
  first_editor : String
  publisher_name : String
  publisher : String
  print_identifier : String
  print_isbn : String
  isbn : String
  doi : String
  publication_type : String
  coverage : String
  notes : String
deriving DecidableEq, Repr

/-- `KBARTHarvester._get_first`: first truthy value among the candidate
columns, stripped.  (The case-insensitive fallback pass in the code scans the
same columns again, so it never finds anything new here.) -/
def kbartGetFirst (vals : List String) : Option String :=
  (vals.find? (· ≠ "")).map pyTrim

def kbartTitleOf (row : KBARTRow) : Option String :=
  kbartGetFirst [row.publication_title, row.title, row.article_title]

def kbartUrlOf (row : KBARTRow) : Option String :=
  kbartGetFirst [row.title_url, row.title_url, row.online_identifier, row.url]

def kbartOnlineIdOf (row : KBARTRow) : Option String :=
  kbartGetFirst [row.online_identifier, row.doi]

def kbartAuthorOf (row : KBARTRow) : Option String :=
  kbartGetFirst [row.first_author, row.first_editor, row.first_author]

def kbartPublisherOf (row : KBARTRow) : Option String :=
  kbartGetFirst [row.publisher_name, row.publisher]

def kbartIsbnOf (row : KBARTRow) : Option String :=
  kbartGetFirst [row.print_identifier, row.print_isbn, row.isbn]

/-- `KBARTHarvester._infer_resource_type`. -/
def kbartInferResourceType (row : KBARTRow) : String :=
  match kbartGetFirst [row.publication_type, row.publication_type] with
  | none => "other"
  | some v =>
    let v := pyLower v
    if pyContains v "monograph" || pyContains v "book" then "book"
    else if pyContains v "article" || pyContains v "journal" then "article"
    else "other"

/-- The `defaults` dict built for one KBART row. -/
structure KDefaults where
  title : String
  description : String
  url : String
  author : String
  publisher : String
  isbn : String
  normalised_type : String
deriving DecidableEq, Repr

def kbartDefaults (row : KBARTRow) : KDefaults :=
  let title := (kbartTitleOf row).getD ""
  let url := ((kbartUrlOf row).orElse (fun _ => kbartOnlineIdOf row)).getD ""
  { title := if title ≠ "" then title else if url ≠ "" then url else "(untitled)"
    description :=
      if row.coverage ≠ "" then row.coverage
      else if row.notes ≠ "" then row.notes else ""
    url := url
    author := (kbartAuthorOf row).getD ""
    publisher := (kbartPublisherOf row).getD ""
    isbn := (kbartIsbnOf row).getD ""
    normalised_type := kbartInferResourceType row }

/-- The conservative in-place merge of `harvest_from_path`:
`for k, v in defaults.items(): if v: setattr(resource, k, v)`. -/
def kbartApplyDefaults (r : Resource) (d : KDefaults) : Resource :=
  { r with
    title := if d.title ≠ "" then d.title else r.title
    description := if d.description ≠ "" then d.description else r.description
    url := if d.url ≠ "" then d.url else r.url
    author := if d.author ≠ "" then d.author else r.author
    publisher := if d.publisher ≠ "" then d.publisher else r.publisher
    isbn := if d.isbn ≠ "" then d.isbn else r.isbn
    normalised_type :=
      if d.normalised_type ≠ "" then some d.normalised_type
      else r.normalised_type }

/-- Process one KBART row against the store: match by (url, source) first,
then by (title, source), update conservatively on a match, otherwise create.
Returns the new store and whether a row was created (`true`) or
updated (`false`). -/
def kbartProcessRow (src : Nat) (store : List Resource) (row : KBARTRow) :
    List Resource × Bool :=
  let title := (kbartTitleOf row).getD ""
  let url := ((kbartUrlOf row).orElse (fun _ => kbartOnlineIdOf row)).getD ""
  let d := kbartDefaults row
  let byUrl : Resource → Bool := fun r => r.url == url && r.source == src
  let byTitle : Resource → Bool := fun r => r.title == title && r.source == src
  if url ≠ "" && store.any byUrl then
    (replaceFirst byUrl (fun r => kbartApplyDefaults r d) store, false)
  else if title ≠ "" && store.any byTitle then
    (replaceFirst byTitle (fun r => kbartApplyDefaults r d) store, false)
  else
    (store ++ [{ Resource.blank src with
        title := d.title, description := d.description, url := d.url,
        author := d.author, publisher := d.publisher, isbn := d.isbn,
        normalised_type := some d.normalised_type }], true)

/-- Accumulated counters and store of the KBART row loop. -/
structure KBARTLoopOut where
  created : Nat
  updated : Nat
  failed : Nat
  found : Nat
  store : List Resource
deriving Repr

/-- The row loop of `KBARTHarvester.harvest_from_path`: each row either
processes (possibly creating or updating) or hits a caught exception
(`fails idx`), incrementing the failure counter; `resources_found` counts
the successful rows. -/
def kbartLoop (src : Nat) (fails : Nat → Bool) :
    List KBARTRow → Nat → List Resource → KBARTLoopOut
  | [], _, store => ⟨0, 0, 0, 0, store⟩
  | row :: rows, idx, store =>
    if fails idx then
      let out := kbartLoop src fails rows (idx + 1) store
      { out with failed := out.failed + 1 }
    else
      let pr := kbartProcessRow src store row
      let out := kbartLoop src fails rows (idx + 1) pr.1
      if pr.2 then { out with created := out.created + 1, found := out.found + 1 }
      else { out with updated := out.updated + 1, found := out.found + 1 }

/-- `KBARTHarvester.harvest_from_path` after the file was read and parsed:
run the row loop and finalize the job.  Note there is NO
`max_resources_per_harvest` cap anywhere in this path, and the terminal
status is the tri-state expression
`"completed" if failed == 0 else ("partial" if created or updated else "failed")`. -/
def kbartHarvest (src : Nat) (fails : Nat → Bool) (store : List Resource)
    (rows : List KBARTRow) : HarvestJobResult × List Resource :=
  let out := kbartLoop src fails rows 0 store
  ({ status :=
      if out.failed == 0 then "completed"
      else if out.created + out.updated > 0 then "partial" else "failed"
     resources_found := out.found, resources_created := out.created,
     resources_updated := out.updated, resources_failed := out.failed },
   out.store)

/-! ## Ingestion upsert — `resources/harvesters/ingestion.py` -/

def ALLOWED_TYPES : List String :=
  ["book", "chapter", "article", "video", "course", "other"]

/-- `coerce_normalised_type`. -/
def coerce_normalised_type (raw : String) : Option String :=
  if raw = "" then none
  else
    let rawStr := pyLower (pyTrim raw)
    if ALLOWED_TYPES.contains rawStr then some rawStr else none

/-- The record dict handed to `ingest_record_dict` (all values `""` when the
key is absent or falsy, matching the `data.get(k) or ""` accesses). -/
structure IngestData where
  title : String
  url : String
  description : String
  license : String
  publisher : String
  author : String
  language : String
  resource_type : String
  normalised_type : String
  subject : String
  isbn : String
  issn : String
  oclc_number : String
  doi : String
deriving DecidableEq, Repr

/-- `ingest_record_dict`: reject an empty URL, then Django
`update_or_create(source=source, url=url, defaults=...)` — here the match
key IS the pair (source, url). -/
def ingest_record_dict (src : Nat) (store : List Resource) (data : IngestData) :
    Except String (List Resource) :=
  let url := pyTrim data.url
  if url = "" then .error "Cannot ingest record without a URL"
  else
    let applyDefaults : Resource → Resource := fun r =>
      { r with
        title := data.title
        description := data.description
        license := data.license
        publisher := data.publisher
        author := data.author
        language := if data.language ≠ "" then data.language else "en"
        subject := data.subject
        resource_type := pyTrim data.resource_type
        normalised_type := coerce_normalised_type data.normalised_type
        isbn := data.isbn
        issn := data.issn
        oclc_number := data.oclc_number
        doi := data.doi
        is_active := true }
    let key : Resource → Bool := fun r => r.source == src && r.url == url
    if store.any key then
      .ok (replaceFirst key applyDefaults store)
    else
      .ok (store ++ [applyDefaults { Resource.blank src with url := url }])

/-! ## OAI-PMH adapter — `resources/harvesters/oaipmh_harvester.py` -/

/-- The Dublin Core payload of one `<record>` element, as the element texts
`process_record` looks up (`""` for an absent element / `None` text).
`identifiers` lists the texts of all `dc:identifier` elements in document
order; `get_element_text(dc, 'identifier')` is its head. -/
structure DCRecord where
  hasMetadata : Bool
  hasDC : Bool
  title : String
  alternative : String
  creator : String
  identifiers : List String
  uri : String
  link : String
  description : String
  rights : String
  publisher : String
  language : String
  dctype : String
  subject : String
deriving DecidableEq, Repr

/-- Output record of `process_record` (the keys that matter downstream). -/
structure OAIRecordOut where
  title : String
  description : String
  url : String
  license : String
  publisher : String
  author : String
  language : String
  resource_type : String
  subject : String
deriving DecidableEq, Repr

/-- `get_identifier` inside `process_record`: the first truthy text among
the first `identifier`, `uri` and `link` elements; only when all of those
are empty does it fall back to scanning every `dc:identifier` for a value
starting with `"http"`. -/
def oaipmhGetIdentifier (r : DCRecord) : String :=
  let firstIdentifier := r.identifiers.headD ""
  if firstIdentifier ≠ "" then firstIdentifier
  else if r.uri ≠ "" then r.uri
  else if r.link ≠ "" then r.link
  else
    match r.identifiers.find? (fun t => pyStartsWith t "http") with
    | some t => t
    | none => ""

/-- `OAIPMHHarvester.process_record`: requires metadata and a `dc:dc`
element, resolves title with fallbacks, and accepts the record only when
both title and url are non-empty. -/
def process_record (r : DCRecord) : Option OAIRecordOut :=
  if !r.hasMetadata then none
  else if !r.hasDC then none
  else
    let title :=
      if r.title ≠ "" then r.title
      else if r.alternative ≠ "" then r.alternative
      else r.creator
    let url := oaipmhGetIdentifier r
    let out : OAIRecordOut :=
      { title := title, description := r.description, url := url,
        license := r.rights, publisher := r.publisher, author := r.creator,
        language := r.language, resource_type := r.dctype,
        subject := r.subject }
    if out.title = "" || out.url = "" then none else some out

/-- One HTTP response of the OAI-PMH endpoint as `fetch_records` sees it:
a status (or a network error raised by `requests.get`), the `<record>`
elements its body parses to, and the text of its `resumptionToken` element
(`""` when absent). The adapter's code never reads `resumptionToken`. -/
structure OAIPage where
  netError : Bool
  status : Nat
  records : List DCRecord
  resumptionToken : String
deriving Repr

/-- The `while attempts < 4` retry loop of `fetch_records`. `pages n` is the
response to the n-th HTTP request issued (0-indexed); `issued` counts
requests.  The loop keeps the LAST assigned `response` across iterations
(a network error leaves it unchanged), retries on 429/5xx, retries on the
`requests.HTTPError` a 4xx raises in `raise_for_status` (caught by the
`except RequestException`), and breaks on any status below 400.
Returns (requests issued, final value of `response`). -/
def oaipmhFetchLoop (pages : Nat → OAIPage) :
    Nat → Nat → Option OAIPage → Nat × Option OAIPage
  | 0, issued, lastResp => (issued, lastResp)
  | remaining + 1, issued, lastResp =>
    let page := pages issued
    if page.netError then
      oaipmhFetchLoop pages remaining (issued + 1) lastResp
    else if page.status ≥ 500 || page.status == 429 then
      oaipmhFetchLoop pages remaining (issued + 1) (some page)
    else if page.status ≥ 400 then
      oaipmhFetchLoop pages remaining (issued + 1) (some page)
    else
      (issued + 1, some page)

/-- `fetch_records`: one retry loop (at most 4 iterations) around a single
`GET ?verb=ListRecords&metadataPrefix=...` request; raises `ValidationError`
only when no response was ever assigned. -/
def fetch_records (pages : Nat → OAIPage) : Nat × Except String OAIPage :=
  match oaipmhFetchLoop pages 4 0 none with
  | (n, none) => (n, .error "OAI-PMH fetch failed after retries")
  | (n, some p) => (n, .ok p)

/-- `fetch_and_process_records`: parse the single fetched response and run
`process_record` over its `<record>` elements.  The pair's first component
is the total number of HTTP requests issued. -/
def fetch_and_process_records (pages : Nat → OAIPage) :
    Nat × Except String (List OAIRecordOut) :=
  match fetch_records pages with
  | (n, .error e) => (n, .error e)
  | (n, .ok page) => (n, .ok (page.records.filterMap process_record))

/-! ## MARCXML adapter — `resources/harvesters/marcxml_harvester.py` -/

/-- `_normalise_url`: keep only values starting (case-insensitively) with
`http://` or `https://`; everything else becomes `""`. -/
def normalise_url (raw : String) : String :=
  if raw = "" then ""
  else
    let r := pyTrim raw
    if pyStartsWith (pyLower r) "http://" || pyStartsWith (pyLower r) "https://"
    then r else ""

/-- The fields either MARCXML parsing tier extracts from one record before
the output dict is assembled. -/
structure MARCFields where
  title : String
  url : String
  isbn : String
  description : String
  authors : List String
  publisher : String
  language : String
deriving DecidableEq, Repr

/-- Assembly of the output dict, shared verbatim by `_parse_with_pymarc` and
`_parse_with_elementtree`: the title falls back to the ISBN and then to
`'Untitled'`, while the url passes through `_normalise_url` with no
fallback. -/
def marcRecordOut (f : MARCFields) : RecordData :=
  { title := if f.title ≠ "" then f.title
             else if f.isbn ≠ "" then f.isbn else "Untitled"
    url := normalise_url f.url
    description := f.description
    license := ""
    publisher := f.publisher
    author := ", ".intercalate f.authors
    language := if f.language ≠ "" then f.language else "en"
    resource_type := "book" }

/-! ## API adapter — `resources/harvesters/api_harvester.py` -/

/-- One element of the API's results array, with `none` marking an absent
key (the code distinguishes absent keys from present-but-empty values via
`dict.get` defaults). -/
structure APIRecord where
  title : Option String
  name : Option String
  description : Option String
  summary : Option String
  url : Option String
  link : Option String
  identifier : Option String
  license : Option String
  rights : Option String
  publisher : Option String
  provider : Option String
  author : Option String
  creator : Option String
  owner : Option String
  language : Option String
  resource_type : Option String
  rectype : Option String
  subject : Option String
  category : Option String
deriving DecidableEq, Repr

/-- Output record of `_process_api_response` for one element. -/
structure APIRecordOut where
  title : String
  description : String
  url : String
  license : String
  publisher : String
  author : String
  language : String
  resource_type : String
  subject : String
deriving DecidableEq, Repr

/-- The field mapping inside `_process_api_response`, nested `dict.get`
fallback chains included. -/
def apiMapRecord (r : APIRecord) : APIRecordOut :=
  { title := r.title.getD (r.name.getD "")
    description := r.description.getD (r.summary.getD "")
    url := r.url.getD (r.link.getD (r.identifier.getD ""))
    license := r.license.getD (r.rights.getD "")
    publisher := r.publisher.getD (r.provider.getD "")
    author := r.author.getD (r.creator.getD (r.owner.getD ""))
    language := r.language.getD "en"
    resource_type := r.resource_type.getD (r.rectype.getD "")
    subject := r.subject.getD (r.category.getD "") }

/-- `_process_api_response` per element: keep the record only if both the
resolved title and the resolved url are truthy. -/
def processApiRecord (r : APIRecord) : Option APIRecordOut :=
  let out := apiMapRecord r
  if out.title ≠ "" && out.url ≠ "" then some out else none

/-- `_process_api_response` over the extracted results list. -/
def processApiResponse (rs : List APIRecord) : List APIRecordOut :=
  rs.filterMap processApiRecord

/-! ## Hybrid search engine — `resources/services/search_engine.py` -/

/-- A `SearchResult` dataclass; the resource reference is its primary key. -/
structure SResult where
  id : Nat
  similarity_score : ℚ
  quality_boost : ℚ
  final_score : ℚ
  match_reason : String
deriving DecidableEq, Repr

/-- The columns of an `OERResource` row that `_keyword_search` touches. -/
structure DBResource where
  id : Nat
  title : String
  description : String
  keywords : String
  subject : String
  is_active : Bool
  overall_quality_score : ℚ
deriving DecidableEq, Repr

/-- The OR-combined `Q` filter of `_keyword_search`: any keyword
case-insensitively contained in title/description/keywords/subject.
An empty keyword list leaves the filter as the empty `Q()`, which matches
every row. -/
def kwFilter (keywords : List String) (r : DBResource) : Bool :=
  keywords.isEmpty ||
    keywords.any (fun kw =>
      pyContains (pyLower r.title) kw || pyContains (pyLower r.description) kw ||
      pyContains (pyLower r.keywords) kw || pyContains (pyLower r.subject) kw)

/-- The per-resource relevance score of `_keyword_search`:
`(title_matches * 0.6 + desc_matches * 0.4) / len(keywords)`.  Python's
division raises `ZeroDivisionError` on a zero divisor, hence the `Except`. -/
def keywordScoreOf (keywords : List String) (r : DBResource) : Except String ℚ :=
  if keywords.length = 0 then .error "ZeroDivisionError: division by zero"
  else
    let t := keywords.countP (fun kw => pyContains (pyLower r.title) kw)
    let d := keywords.countP (fun kw => pyContains (pyLower r.description) kw)
    .ok (((t : ℚ) * (3/5) + (d : ℚ) * (2/5)) / (keywords.length : ℚ))

/-- The result-construction loop of `_keyword_search`, propagating the
first raised error. -/
def keywordResults (keywords : List String) :
    List DBResource → Except String (List SResult)
  | [] => .ok []
  | r :: rs => do
    let ks ← keywordScoreOf keywords r
    let rest ← keywordResults keywords rs
    .ok ({ id := r.id, similarity_score := ks,
           quality_boost := r.overall_quality_score / 5,
           final_score := ks * (7/10) + (r.overall_quality_score / 5) * (3/10),
           match_reason := "keyword_match" } :: rest)

/-- `OERSearchEngine._keyword_search` (with no extra facet filters):
tokenize the query, filter active rows by the keyword `Q`, truncate to
`limit`, then score each row in order. -/
def keyword_search (query : String) (db : List DBResource) (limit : Nat) :
    Except String (List SResult) :=
  let keywords := pySplitWs (pyLower query)
  let qs := ((db.filter (fun r => r.is_active)).filter (kwFilter keywords)).take limit
  keywordResults keywords qs

/-- The 1.15 boost constant applied when a resource appears in both passes. -/
def hybridBoost : ℚ := 23 / 20

/-- `merged[result.resource.id] = result` for the semantic loop of
`_merge_results`: dict insertion (replace in place, or append). -/
def mergeInsertSem (m : List SResult) (r : SResult) : List SResult :=
  if m.any (fun e => e.id == r.id) then
    m.map (fun e => if e.id == r.id then r else e)
  else m ++ [r]

/-- The in-place mutation of `_merge_results` when a resource was found in
both passes: `existing.final_score = max(existing, result) * 1.15` and
`existing.match_reason = "hybrid_match"`. -/
def hybridize (e r : SResult) : SResult :=
  { e with final_score := max e.final_score r.final_score * hybridBoost,
           match_reason := "hybrid_match" }

/-- The keyword loop of `_merge_results`: on a hit, mutate the existing
(semantic) entry via `hybridize`; otherwise insert the keyword entry. -/
def mergeUpdateKw (m : List SResult) (r : SResult) : List SResult :=
  if m.any (fun e => e.id == r.id) then
    m.map (fun e => if e.id == r.id then hybridize e r else e)
  else m ++ [r]

/-- The `merged` dict of `_merge_results` after both loops, as an ordered
association list. -/
def mergeDict (sem kw : List SResult) : List SResult :=
  kw.foldl mergeUpdateKw (sem.foldl mergeInsertSem [])

/-- `_merge_results`: build the dict, stably sort descending by final score
(Python's `list.sort(..., reverse=True)` is stable), truncate to `limit`. -/
def merge_results (sem kw : List SResult) (limit : Nat) : List SResult :=
  ((mergeDict sem kw).mergeSort
      (fun a b => decide (b.final_score ≤ a.final_score))).take limit

/-- `hybrid_search`: `semantic_search` swallows every exception internally
(returning `[]` on failure), so its outcome is passed in as a plain list;
`_keyword_search` is called WITHOUT any guard, so its error escapes to the
caller. -/
def hybrid_search (semanticResults : List SResult) (query : String)
    (db : List DBResource) (limit : Nat) : Except String (List SResult) := do
  let kw ← keyword_search query db limit
  .ok (merge_results semanticResults kw limit)

/-! # Theorems -/

/-- Helper: an `if c then none else some a` that produced `some out` had a
false guard and returned `a` itself. -/
theorem ite_none_some {α : Type} {c : Prop} [Decidable c] (a out : α)
    (h : (if c then none else some a) = some out) : ¬c ∧ a = out := by
  by_cases hc : c
  · rw [if_pos hc] at h; cases h
  · rw [if_neg hc] at h
    cases h
    exact ⟨hc, rfl⟩

/-- C7: with `max_attempts = 3`, `backoff_factor = 2` and a server that
answers 503 to every request, `request_with_retry` makes exactly 3 attempts,
sleeps `2^1, 2^2, 2^3` seconds (the backoff exponent is the 1-based attempt
counter), and then raises the last error. -/
theorem retry_bound_503 (server : Nat → HttpOutcome)
    (h : ∀ n, server n = .resp 503) :
    request_with_retry server 3 2 =
      { attemptsMade := 3, sleeps := [2, 4, 8],
        result := .error "status 503" } := by
  simp [request_with_retry, retryLoop, h]
  rfl

/-- Witness for C7 at the constant-503 server. -/
theorem retry_bound_503_witness :
    request_with_retry (fun _ => .resp 503) 3 2 =
      { attemptsMade := 3, sleeps := [2, 4, 8],
        result := .error "status 503" } :=
  retry_bound_503 (fun _ => .resp 503) (fun _ => rfl)

/-! ### C1: OAI-PMH resumption-token termination -/

/-- C1 (amended): whenever the first `ListRecords` response is a success
(no network error, status below 400), the OAI-PMH adapter's fetch issues
exactly ONE HTTP request and returns the records parsed from that first
response alone.  The code never reads the `resumptionToken` element, so no
continuation request is ever issued. -/
theorem oaipmh_single_request (pages : Nat → OAIPage)
    (hne : (pages 0).netError = false) (hs : (pages 0).status < 400) :
    fetch_and_process_records pages =
      (1, .ok ((pages 0).records.filterMap process_record)) := by
  have h5 : ¬ 500 ≤ (pages 0).status := by omega
  have h4 : ¬ 400 ≤ (pages 0).status := by omega
  have h9 : (pages 0).status ≠ 429 := by omega
  simp [fetch_and_process_records, fetch_records, oaipmhFetchLoop,
    hne, h5, h4, h9]

/-- A Dublin Core record with a title and one HTTP identifier. -/
def dcRecPage0 : DCRecord :=
  { hasMetadata := true, hasDC := true, title := "Record A", alternative := "",
    creator := "", identifiers := ["https://example.org/a"], uri := "",
    link := "", description := "", rights := "", publisher := "",
    language := "", dctype := "", subject := "" }

/-- The record sitting on the second page of `oaiPagesEx`. -/
def dcRecPage1 : DCRecord :=
  { dcRecPage0 with
    title := "Record B"
    identifiers := ["https://example.org/b"] }

/-- A two-page OAI-PMH session: the first response carries the non-empty
resumption token "token-1", the second carries none (`N = 1` in the claim's
terms). -/
def oaiPagesEx : Nat → OAIPage := fun n =>
  if n = 0 then
    { netError := false, status := 200, records := [dcRecPage0],
      resumptionToken := "token-1" }
  else
    { netError := false, status := 200, records := [dcRecPage1],
      resumptionToken := "" }

/-- C1 counterexample: with `N = 1` (first response holding a non-empty
resumption token, second holding none) the claim demands `N + 1 = 2`
requests and the records of both responses; the adapter issues exactly 1
request and returns only the first page's record. -/
theorem oaipmh_resumption_counterexample :
    (oaiPagesEx 0).resumptionToken = "token-1" ∧
    (oaiPagesEx 1).resumptionToken = "" ∧
    fetch_and_process_records oaiPagesEx =
      (1, .ok [{ title := "Record A", description := "",
                 url := "https://example.org/a", license := "",
                 publisher := "", author := "", language := "",
                 resource_type := "", subject := "" }]) ∧
    (1 : Nat) ≠ 1 + 1 :=
  ⟨rfl, rfl, rfl, by decide⟩

/-- Witness for the amended C1 at the concrete two-page server. -/
theorem oaipmh_single_request_witness :
    (oaiPagesEx 0).netError = false ∧ (oaiPagesEx 0).status < 400 ∧
    fetch_and_process_records oaiPagesEx =
      (1, .ok ((oaiPagesEx 0).records.filterMap process_record)) :=
  ⟨rfl, by decide, oaipmh_single_request oaiPagesEx rfl (by decide)⟩

/-! ### C2: the per-harvest record cap -/

/-- C2 (amended): in the generic `BaseHarvester.harvest` flow (shared by the
API, OAI-PMH, CSV and MARCXML adapters), a cap `N > 0` truncates the fetched
list before the upsert loop, so the finished job's `resources_found` equals
`min rawRecordCount N` and in particular is at most `N`.  The KBART
`harvest_from_path` flow never reads the cap (see the counterexample). -/
theorem cap_invariant_base (src : Nat) (fails : Nat → Bool)
    (store : List Resource) (records : List RecordData) (N : Nat)
    (hN : 0 < N) :
    (baseHarvest src fails store records N).1.resources_found =
        min records.length N ∧
    (baseHarvest src fails store records N).1.resources_found ≤ N := by
  unfold baseHarvest
  simp only [hN, if_pos]
  constructor
  · simp [List.length_take, Nat.min_comm]
  · simp [List.length_take]

/-- Sample records for the cap witness. -/
def recA : RecordData :=
  { title := "Alpha", description := "", url := "https://example.org/alpha",
    license := "", publisher := "", author := "", language := "en",
    resource_type := "" }

/-- Second sample record. -/
def recB : RecordData :=
  { recA with title := "Beta", url := "https://example.org/beta" }

/-- Witness for the amended C2: two fetched records, cap 1. -/
theorem cap_invariant_base_witness :
    0 < 1 ∧
    ((baseHarvest 7 (fun _ => false) [] [recA, recB] 1).1.resources_found =
        min (List.length [recA, recB]) 1 ∧
     (baseHarvest 7 (fun _ => false) [] [recA, recB] 1).1.resources_found ≤ 1) :=
  ⟨by decide, cap_invariant_base 7 (fun _ => false) [] [recA, recB] 1 (by decide)⟩

/-- An all-blank KBART row (every consulted column absent or empty). -/
def kbartRowBlank : KBARTRow :=
  { publication_title := "", title := "", article_title := "", title_url := "",
    online_identifier := "", url := "", first_author := "", first_editor := "",
    publisher_name := "", publisher := "", print_identifier := "",
    print_isbn := "", isbn := "", doi := "", publication_type := "",
    coverage := "", notes := "" }

/-- A KBART row for the book "Alpha". -/
def kbartRow1 : KBARTRow :=
  { kbartRowBlank with
    publication_title := "Alpha"
    title_url := "https://example.org/alpha" }

/-- A KBART row for the book "Beta". -/
def kbartRow2 : KBARTRow :=
  { kbartRowBlank with
    publication_title := "Beta"
    title_url := "https://example.org/beta" }

/-- C2 counterexample: a KBART source configured with
`max_resources_per_harvest = 1` still reports `resources_found = 2` after a
two-row harvest — `harvest_from_path` never consults the cap (which is why
the embedded `kbartHarvest` has no cap parameter at all), so
`resources_found = min(rawRecordCount, N)` fails with `2 > 1`. -/
theorem kbart_cap_counterexample :
    (kbartHarvest 1 (fun _ => false) [] [kbartRow1, kbartRow2]).1.resources_found
        = 2 ∧
    ¬ (2 : Nat) ≤ 1 :=
  ⟨rfl, by decide⟩

/-! ### C6: tri-state terminal job status -/

/-- In the KBART row loop, every row is accounted for: the successes add up
to `found` and `found + failed` is the number of rows. -/
theorem kbartLoop_counts (src : Nat) (fails : Nat → Bool)
    (rows : List KBARTRow) : ∀ (idx : Nat) (store : List Resource),
    (kbartLoop src fails rows idx store).created +
        (kbartLoop src fails rows idx store).updated =
      (kbartLoop src fails rows idx store).found ∧
    (kbartLoop src fails rows idx store).found +
        (kbartLoop src fails rows idx store).failed = rows.length := by
  induction rows with
  | nil => intro idx store; simp [kbartLoop]
  | cons row rows ih =>
    intro idx store
    by_cases hf : fails idx
    · have h := ih (idx + 1) store
      simp [kbartLoop, hf]
      omega
    · have h := ih (idx + 1) (kbartProcessRow src store row).1
      by_cases hc : (kbartProcessRow src store row).2
      · simp [kbartLoop, hf, hc]
        omega
      · simp [kbartLoop, hf, hc]
        omega

/-- C6 (amended): the tri-state terminal status holds for the KBART
adapter's harvest runs — after a successful fetch/parse the job ends
`completed` when no per-row failure occurred, `partial` when failures
occurred alongside at least one created-or-updated row, and `failed` when
every row failed; the generic `BaseHarvester.harvest` flow instead marks the
job `completed` unconditionally once the fetch succeeded (see the
counterexample). -/
theorem kbart_tristate_status (src : Nat) (fails : Nat → Bool)
    (store : List Resource) (rows : List KBARTRow) :
    (kbartHarvest src fails store rows).1.resources_created +
        (kbartHarvest src fails store rows).1.resources_updated =
      (kbartHarvest src fails store rows).1.resources_found ∧
    (kbartHarvest src fails store rows).1.resources_found +
        (kbartHarvest src fails store rows).1.resources_failed = rows.length ∧
    (kbartHarvest src fails store rows).1.status =
      (if (kbartHarvest src fails store rows).1.resources_failed = 0 then
        "completed"
       else if 0 < (kbartHarvest src fails store rows).1.resources_found then
        "partial"
       else "failed") := by
  have h := kbartLoop_counts src fails rows 0 store
  refine ⟨by simpa [kbartHarvest] using h.1,
          by simpa [kbartHarvest] using h.2, ?_⟩
  simp only [kbartHarvest]
  by_cases hf : (kbartLoop src fails rows 0 store).failed = 0
  · simp [hf]
  · simp [hf, h.1]

/-- C6 counterexample: in the generic `BaseHarvester.harvest` flow a run
whose single record fails its upsert still ends with status `"completed"`
(and `resources_failed = 1`), where the claim demands `"failed"`. -/
theorem base_status_counterexample :
    (baseHarvest 1 (fun _ => true) [] [recA] 0).1.status = "completed" ∧
    (baseHarvest 1 (fun _ => true) [] [recA] 0).1.resources_failed = 1 ∧
    "completed" ≠ "failed" :=
  ⟨rfl, rfl, by decide⟩

/-! ### C3: conservative merge on upsert -/

/-- A stored resource with previously harvested non-empty data. -/
def storedAlpha : Resource :=
  { Resource.blank 1 with
    url := "https://example.org/alpha"
    title := "Alpha"
    description := "A thorough description"
    author := "Ada Lovelace" }

/-- A re-harvested record for the same URL whose description and author
came back empty this time. -/
def recAlphaPartial : RecordData :=
  { title := "Alpha", description := "", url := "https://example.org/alpha",
    license := "", publisher := "", author := "", language := "en",
    resource_type := "" }

/-- C3 counterexample: `BaseHarvester.upsert_resource` matches the stored
resource and overwrites its non-empty description and author with the
incoming empty strings — Django `update_or_create` applies the whole
`defaults` dict, blanks included. -/
theorem conservative_merge_counterexample :
    storedAlpha.description = "A thorough description" ∧
    storedAlpha.author = "Ada Lovelace" ∧
    (upsert_resource 1 [storedAlpha] recAlphaPartial).2 = false ∧
    ((upsert_resource 1 [storedAlpha] recAlphaPartial).1.map
        (fun r => (r.description, r.author))) = [("", "")] :=
  ⟨rfl, rfl, rfl, rfl⟩

/-- C3 (amended): only the KBART adapter's update path merges
conservatively.  Its per-field rule: a field is overwritten exactly when the
incoming value is non-empty, and every field outside the KBART `defaults`
dict is untouched.  (`BaseHarvester.upsert_resource` and
`ingest_record_dict` instead overwrite every field wholesale — see the
counterexample.) -/
theorem kbart_conservative_merge (r : Resource) (d : KDefaults) :
    (kbartApplyDefaults r d).title =
      (if d.title = "" then r.title else d.title) ∧
    (kbartApplyDefaults r d).description =
      (if d.description = "" then r.description else d.description) ∧
    (kbartApplyDefaults r d).url = (if d.url = "" then r.url else d.url) ∧
    (kbartApplyDefaults r d).author =
      (if d.author = "" then r.author else d.author) ∧
    (kbartApplyDefaults r d).publisher =
      (if d.publisher = "" then r.publisher else d.publisher) ∧
    (kbartApplyDefaults r d).isbn = (if d.isbn = "" then r.isbn else d.isbn) ∧
    (kbartApplyDefaults r d).normalised_type =
      (if d.normalised_type = "" then r.normalised_type
       else some d.normalised_type) ∧
    (kbartApplyDefaults r d).source = r.source ∧
    (kbartApplyDefaults r d).license = r.license ∧
    (kbartApplyDefaults r d).language = r.language ∧
    (kbartApplyDefaults r d).resource_type = r.resource_type ∧
    (kbartApplyDefaults r d).subject = r.subject ∧
    (kbartApplyDefaults r d).issn = r.issn ∧
    (kbartApplyDefaults r d).oclc_number = r.oclc_number ∧
    (kbartApplyDefaults r d).doi = r.doi ∧
    (kbartApplyDefaults r d).is_active = r.is_active := by
  unfold kbartApplyDefaults
  refine ⟨?_, ?_, ?_, ?_, ?_, ?_, ?_, rfl, rfl, rfl, rfl, rfl, rfl, rfl,
    rfl, rfl⟩ <;>
    by_cases h : d.title = "" <;>
    by_cases h2 : d.description = "" <;>
    by_cases h3 : d.url = "" <;>
    by_cases h4 : d.author = "" <;>
    by_cases h5 : d.publisher = "" <;>
    by_cases h6 : d.isbn = "" <;>
    by_cases h7 : d.normalised_type = "" <;>
    simp [h, h2, h3, h4, h5, h6, h7]

/-! ### C4: upsert identity key -/

/-- A resource belonging to source 2 at the same URL. -/
def storedOther : Resource :=
  { Resource.blank 2 with
    url := "https://example.org/alpha"
    title := "Alpha as catalogued by source 2" }

/-- C4 counterexample: `BaseHarvester.upsert_resource` run for source 1
against a store holding source 2's resource at the same URL does NOT create
a new resource — it matches by URL alone, updates source 2's row and
reassigns it to source 1. -/
theorem upsert_key_counterexample :
    storedOther.source = 2 ∧
    (upsert_resource 1 [storedOther] recAlphaPartial).2 = false ∧
    ((upsert_resource 1 [storedOther] recAlphaPartial).1.map (·.source))
        = [1] ∧
    (upsert_resource 1 [storedOther] recAlphaPartial).1.length = 1 :=
  ⟨rfl, rfl, rfl, rfl⟩

/-- C4 (amended): the `(source, URL)` identity key holds for the ingestion
upsert layer (`ingest_record_dict`): when no stored resource carries this
source-and-URL pair — in particular when the URL belongs only to a resource
of a DIFFERENT source — a new resource is created for this source and every
existing resource is left untouched.  `BaseHarvester.upsert_resource`
instead matches by URL alone (see the counterexample). -/
theorem ingest_creates_for_other_source (src : Nat) (store : List Resource)
    (data : IngestData) (hurl : pyTrim data.url ≠ "")
    (hmiss : ∀ r ∈ store, ¬(r.source = src ∧ r.url = pyTrim data.url)) :
    ingest_record_dict src store data =
      .ok (store ++
        [{ source := src, url := pyTrim data.url, title := data.title,
           description := data.description, license := data.license,
           publisher := data.publisher, author := data.author,
           language := if data.language ≠ "" then data.language else "en",
           resource_type := pyTrim data.resource_type,
           subject := data.subject,
           normalised_type := coerce_normalised_type data.normalised_type,
           isbn := data.isbn, issn := data.issn,
           oclc_number := data.oclc_number, doi := data.doi,
           is_active := true }]) := by
  have hany : store.any
      (fun r => r.source == src && r.url == pyTrim data.url) = false := by
    rw [List.any_eq_false]
    intro r hr
    have := hmiss r hr
    simp only [Bool.and_eq_true, beq_iff_eq]
    tauto
  unfold ingest_record_dict
  simp [hurl, hany, Resource.blank]

/-- The ingestion-layer record for the C4 witness. -/
def ingestDataAlpha : IngestData :=
  { title := "Alpha", url := "https://example.org/alpha", description := "",
    license := "", publisher := "", author := "", language := "",
    resource_type := "", normalised_type := "", subject := "", isbn := "",
    issn := "", oclc_number := "", doi := "" }

/-- Witness for the amended C4: source 1 ingests a record whose URL equals
source 2's stored resource; a fresh resource is appended for source 1. -/
theorem ingest_creates_for_other_source_witness :
    pyTrim ingestDataAlpha.url ≠ "" ∧
    (∀ r ∈ [storedOther],
        ¬(r.source = 1 ∧ r.url = pyTrim ingestDataAlpha.url)) ∧
    ingest_record_dict 1 [storedOther] ingestDataAlpha =
      .ok ([storedOther] ++
        [{ source := 1, url := pyTrim ingestDataAlpha.url,
           title := ingestDataAlpha.title,
           description := ingestDataAlpha.description,
           license := ingestDataAlpha.license,
           publisher := ingestDataAlpha.publisher,
           author := ingestDataAlpha.author,
           language := if ingestDataAlpha.language ≠ "" then
             ingestDataAlpha.language else "en",
           resource_type := pyTrim ingestDataAlpha.resource_type,
           subject := ingestDataAlpha.subject,
           normalised_type :=
             coerce_normalised_type ingestDataAlpha.normalised_type,
           isbn := ingestDataAlpha.isbn, issn := ingestDataAlpha.issn,
           oclc_number := ingestDataAlpha.oclc_number,
           doi := ingestDataAlpha.doi, is_active := true }]) :=
  ⟨by decide, by decide,
   ingest_creates_for_other_source 1 [storedOther] ingestDataAlpha
     (by decide) (by decide)⟩

/-! ### C9: record-rejection invariant -/

/-- C9 counterexample: a KBART row with neither a title nor a URL under any
candidate column is NOT discarded — `harvest_from_path` substitutes the
placeholder `"(untitled)"` and creates a resource with an empty URL. -/
theorem record_rejection_counterexample :
    kbartTitleOf kbartRowBlank = none ∧
    kbartUrlOf kbartRowBlank = none ∧
    kbartOnlineIdOf kbartRowBlank = none ∧
    (kbartProcessRow 1 [] kbartRowBlank).2 = true ∧
    (kbartProcessRow 1 [] kbartRowBlank).1.map (fun r => (r.title, r.url))
        = [("(untitled)", "")] :=
  ⟨rfl, rfl, rfl, rfl, rfl⟩

/-- C9 (amended): the API and OAI-PMH adapters do discard every record whose
resolved title or resolved URL is empty before it can reach an upsert; the
KBART adapter instead substitutes `"(untitled)"` and upserts the row (see
the counterexample), and the MARCXML adapter substitutes the ISBN or
`'Untitled'` as title. -/
theorem api_oaipmh_reject_empty :
    (∀ (rs : List APIRecord), ∀ o ∈ processApiResponse rs,
        o.title ≠ "" ∧ o.url ≠ "") ∧
    (∀ (d : DCRecord) (out : OAIRecordOut), process_record d = some out →
        out.title ≠ "" ∧ out.url ≠ "") := by
  constructor
  · intro rs o ho
    rw [processApiResponse, List.mem_filterMap] at ho
    obtain ⟨r, _, hr⟩ := ho
    simp only [processApiRecord] at hr
    split_ifs at hr with h
    cases hr
    simpa [Bool.and_eq_true] using h
  · intro d out hd
    unfold process_record at hd
    by_cases hm : (!d.hasMetadata) = true
    · rw [if_pos hm] at hd; cases hd
    · rw [if_neg hm] at hd
      by_cases hdc : (!d.hasDC) = true
      · rw [if_pos hdc] at hd; cases hd
      · rw [if_neg hdc] at hd
        obtain ⟨hg, he⟩ := ite_none_some _ _ hd
        rw [← he]
        simp only [Bool.or_eq_true, decide_eq_true_eq, not_or] at hg
        exact ⟨hg.1, hg.2⟩

/-- A raw API element carrying a title and a URL. -/
def apiRawEx : APIRecord :=
  { title := some "Intro to Biology", name := none, description := none,
    summary := none, url := some "https://x/1", link := none,
    identifier := none, license := none, rights := none, publisher := none,
    provider := none, author := none, creator := none, owner := none,
    language := none, resource_type := none, rectype := none,
    subject := none, category := none }

/-- The normalized record the API adapter produces for `apiRawEx`. -/
def apiOutEx : APIRecordOut :=
  { title := "Intro to Biology", description := "", url := "https://x/1",
    license := "", publisher := "", author := "", language := "en",
    resource_type := "", subject := "" }

/-- The record the OAI-PMH adapter produces for `dcRecPage0`. -/
def oaiOutEx : OAIRecordOut :=
  { title := "Record A", description := "", url := "https://example.org/a",
    license := "", publisher := "", author := "", language := "",
    resource_type := "", subject := "" }

/-- Witness for the amended C9 at concrete API and OAI-PMH records. -/
theorem api_oaipmh_reject_empty_witness :
    (apiOutEx.title ≠ "" ∧ apiOutEx.url ≠ "") ∧
    (oaiOutEx.title ≠ "" ∧ oaiOutEx.url ≠ "") :=
  ⟨api_oaipmh_reject_empty.1 [apiRawEx] apiOutEx (by decide),
   api_oaipmh_reject_empty.2 dcRecPage0 oaiOutEx (by decide)⟩

/-! ### C5: URL-only acceptance for the MARCXML and OAI-PMH adapters -/

/-- A Dublin Core record whose first `dc:identifier` is an ISBN URN. -/
def dcRecIsbn : DCRecord :=
  { dcRecPage0 with
    title := "Print Book"
    identifiers := ["urn:isbn:9780000000000"] }

/-- C5 counterexample: the OAI-PMH adapter puts the first non-empty
`dc:identifier` text into the url field unchecked — here an ISBN URN, which
is neither empty nor an `http(s)://` URL.  (The `startswith('http')` filter
only runs in the fallback, when the FIRST identifier text is empty.) -/
theorem url_only_counterexample :
    process_record dcRecIsbn =
      some { title := "Print Book", description := "",
             url := "urn:isbn:9780000000000", license := "",
             publisher := "", author := "", language := "",
             resource_type := "", subject := "" } ∧
    ¬("urn:isbn:9780000000000" = "" ∨
      pyStartsWith "urn:isbn:9780000000000" "http://" = true ∨
      pyStartsWith "urn:isbn:9780000000000" "https://" = true) :=
  ⟨rfl, by decide⟩

/-- C5 (amended): URL-only acceptance holds for the MARCXML adapter — every
record it assembles has a url that is empty or begins (case-insensitively)
with `http://` or `https://`, since `_normalise_url` rejects everything else
to `""` with no ISBN fallback.  The OAI-PMH adapter does NOT have this
property (see the counterexample). -/
theorem marcxml_url_only (f : MARCFields) :
    (marcRecordOut f).url = "" ∨
    pyStartsWith (pyLower ((marcRecordOut f).url)) "http://" = true ∨
    pyStartsWith (pyLower ((marcRecordOut f).url)) "https://" = true := by
  have hurl : (marcRecordOut f).url = normalise_url f.url := rfl
  rw [hurl]
  unfold normalise_url
  by_cases h0 : f.url = ""
  · simp [h0]
  · rw [if_neg h0]
    by_cases hc : (pyStartsWith (pyLower (pyTrim f.url)) "http://" ||
        pyStartsWith (pyLower (pyTrim f.url)) "https://") = true
    · rw [if_pos hc]
      right
      simpa [Bool.or_eq_true] using hc
    · rw [if_neg hc]
      left
      rfl

/-! ### C8: the hybrid merge rule -/

/-- Unfolding `find?` by id over a cons cell. -/
theorem find?_id_cons (a : SResult) (l : List SResult) (i : Nat) :
    (a :: l).find? (fun e => e.id == i) =
      if a.id == i then some a else l.find? (fun e => e.id == i) := by
  rw [List.find?_cons]
  by_cases h : (a.id == i) = true <;> simp [h]

/-- Dict insertion appends when the id is not yet present. -/
theorem mergeInsertSem_not_mem (m : List SResult) (r : SResult)
    (h : m.any (fun e => e.id == r.id) = false) :
    mergeInsertSem m r = m ++ [r] := by
  simp [mergeInsertSem, h]

/-- The semantic loop of `_merge_results` over id-unique input reproduces
the input list. -/
theorem foldl_mergeInsertSem (sem : List SResult) :
    ∀ m, (sem.map (·.id)).Nodup →
    (∀ r ∈ sem, m.any (fun e => e.id == r.id) = false) →
    sem.foldl mergeInsertSem m = m ++ sem := by
  induction sem with
  | nil => intro m _ _; simp
  | cons r rest ih =>
    intro m hnd hm
    have hnd' : (rest.map (·.id)).Nodup :=
      (List.nodup_cons.mp (by simpa using hnd)).2
    have hrni : r.id ∉ rest.map (·.id) :=
      (List.nodup_cons.mp (by simpa using hnd)).1
    rw [List.foldl_cons, mergeInsertSem_not_mem m r (hm r (by simp))]
    rw [ih (m ++ [r]) hnd' ?_]
    · rw [← List.append_cons]
    · intro x hx
      rw [List.any_append]
      have h1 := hm x (List.mem_cons_of_mem r hx)
      have h2 : (r.id == x.id) = false := by
        have hmem : x.id ∈ rest.map (·.id) := List.mem_map_of_mem _ hx
        have : r.id ≠ x.id := fun he => hrni (he ▸ hmem)
        simpa using this
      simp [h1, h2]

/-- `find?` by id commutes with an id-preserving map. -/
theorem find?_map_pred (i : Nat) (f : SResult → SResult)
    (hf : ∀ e, (f e).id = e.id) :
    ∀ m : List SResult, (m.map f).find? (fun e => e.id == i) =
      (m.find? (fun e => e.id == i)).map f := by
  intro m
  induction m with
  | nil => rfl
  | cons a m ih =>
    rw [List.map_cons, find?_id_cons, find?_id_cons, hf a]
    by_cases h : (a.id == i) = true
    · simp [h]
    · simp only [h, if_neg, Bool.false_eq_true, if_false, ih]

/-- The keyword-loop step leaves `find?` for every OTHER id unchanged. -/
theorem find_mergeUpdateKw_ne (m : List SResult) (r : SResult) (i : Nat)
    (hne : r.id ≠ i) :
    (mergeUpdateKw m r).find? (fun e => e.id == i) =
      m.find? (fun e => e.id == i) := by
  unfold mergeUpdateKw
  by_cases hany : (m.any (fun e => e.id == r.id)) = true
  · rw [if_pos hany, find?_map_pred i _ ?_]
    · cases hf : m.find? (fun e => e.id == i) with
      | none => rfl
      | some e =>
        have hpe := List.find?_some hf
        have hei : ¬ e.id = r.id := by
          have : e.id = i := by simpa using hpe
          omega
        simp [hei]
    · intro e
      by_cases h : e.id = r.id <;> simp [h, hybridize]
  · rw [if_neg hany, List.find?_append]
    have h1 : ([r].find? (fun e => e.id == i)) = none := by
      rw [find?_id_cons]
      simp [hne]
    rw [h1]
    cases hf : m.find? (fun e => e.id == i) <;> simp

/-- The keyword loop leaves `find?` unchanged for ids outside the keyword
list. -/
theorem find_foldl_updateKw_none (kw : List SResult) :
    ∀ m i, kw.find? (fun e => e.id == i) = none →
    (kw.foldl mergeUpdateKw m).find? (fun e => e.id == i) =
      m.find? (fun e => e.id == i) := by
  induction kw with
  | nil => intro m i _; rfl
  | cons r rest ih =>
    intro m i hk
    rw [find?_id_cons] at hk
    by_cases hpr : (r.id == i) = true
    · rw [if_pos hpr] at hk
      cases hk
    · rw [if_neg hpr] at hk
      rw [List.foldl_cons, ih _ i hk,
        find_mergeUpdateKw_ne _ _ _ (by simpa using hpr)]

/-- Characterization of the keyword loop: for every id, the merged dict
holds the hybridized entry when both sides had one, the lone side's entry
when only one had it, and nothing otherwise. -/
theorem find_foldl_updateKw (kw : List SResult) :
    ∀ m i, (kw.map (·.id)).Nodup →
    (kw.foldl mergeUpdateKw m).find? (fun e => e.id == i) =
      (match kw.find? (fun e => e.id == i),
             m.find? (fun e => e.id == i) with
       | some kr, some e => some (hybridize e kr)
       | some kr, none => some kr
       | none, me => me) := by
  induction kw with
  | nil => intro m i _; rfl
  | cons r rest ih =>
    intro m i hnd
    have hnd' : (rest.map (·.id)).Nodup :=
      (List.nodup_cons.mp (by simpa using hnd)).2
    have hrni : r.id ∉ rest.map (·.id) :=
      (List.nodup_cons.mp (by simpa using hnd)).1
    rw [find?_id_cons]
    by_cases hpr : (r.id == i) = true
    · have hri : r.id = i := by simpa using hpr
      have hrest : rest.find? (fun e => e.id == i) = none := by
        rw [List.find?_eq_none]
        intro a ha hpa
        have hai : a.id = i := by simpa using hpa
        exact hrni (hri ▸ hai ▸ List.mem_map_of_mem _ ha)
      rw [if_pos hpr, List.foldl_cons,
        find_foldl_updateKw_none rest _ i hrest]
      unfold mergeUpdateKw
      by_cases hany : (m.any (fun e => e.id == r.id)) = true
      · rw [if_pos hany, find?_map_pred i _ ?_]
        · cases hf : m.find? (fun e => e.id == i) with
          | none =>
            exfalso
            rw [List.find?_eq_none] at hf
            rcases List.any_eq_true.mp hany with ⟨x, hx, hpx⟩
            exact hf x hx (by simpa [hri] using hpx)
          | some e =>
            have hpe := List.find?_some hf
            have hei : e.id = r.id := by
              have : e.id = i := by simpa using hpe
              omega
            simp [hei]
        · intro e
          by_cases h : e.id = r.id <;> simp [h, hybridize]
      · rw [if_neg hany, List.find?_append]
        have hfm : m.find? (fun e => e.id == i) = none := by
          rw [List.find?_eq_none]
          intro a ha hpa
          exact (by simpa using hany : ¬m.any (fun e => e.id == r.id) = true)
            (List.any_eq_true.mpr ⟨a, ha, by simpa [hri] using hpa⟩)
        rw [hfm]
        have h1 : ([r].find? (fun e => e.id == i)) = some r := by
          rw [find?_id_cons]
          simp [hpr]
        rw [h1]
        rfl
    · rw [if_neg hpr, List.foldl_cons, ih _ i hnd',
        find_mergeUpdateKw_ne _ _ _ (by simpa using hpr)]

/-- One keyword-loop step preserves id-uniqueness of the dict. -/
theorem nodup_mergeUpdateKw (m : List SResult) (r : SResult)
    (h : (m.map (·.id)).Nodup) : ((mergeUpdateKw m r).map (·.id)).Nodup := by
  unfold mergeUpdateKw
  by_cases hany : (m.any (fun e => e.id == r.id)) = true
  · rw [if_pos hany]
    have hmap : (m.map (fun e => if e.id == r.id then hybridize e r else e)).map
        (·.id) = m.map (·.id) := by
      rw [List.map_map]
      apply List.map_congr_left
      intro a _
      by_cases hh : a.id = r.id <;> simp [hh, hybridize]
    rw [hmap]
    exact h
  · rw [if_neg hany, List.map_append, List.nodup_append]
    refine ⟨h, by simp, ?_⟩
    intro x hx hx2
    have hxr : x = r.id := by simpa using hx2
    subst hxr
    rcases List.mem_map.mp hx with ⟨e, he, hei⟩
    exact (by simpa using hany : ¬m.any (fun e => e.id == r.id) = true)
      (List.any_eq_true.mpr ⟨e, he, by simp [hei]⟩)

/-- The keyword loop preserves id-uniqueness of the dict. -/
theorem nodup_foldl_updateKw (kw : List SResult) :
    ∀ m, (m.map (·.id)).Nodup →
      ((kw.foldl mergeUpdateKw m).map (·.id)).Nodup := by
  induction kw with
  | nil => intro m h; exact h
  | cons r rest ih =>
    intro m h
    rw [List.foldl_cons]
    exact ih _ (nodup_mergeUpdateKw m r h)

/-- C8: when both passes return id-unique result lists (the keyword pass is
`distinct()`, the semantic pass a dict), a resource present in both gets the
semantic entry with final score `max(semanticFinal, keywordFinal) * 1.15`
and reason `"hybrid_match"`; a resource present in one pass keeps that
pass's entry unchanged; and the merged output of `_merge_results` is
deduplicated by resource id. -/
theorem hybrid_merge_rule (sem kw : List SResult) (limit : Nat)
    (hs : (sem.map (·.id)).Nodup) (hk : (kw.map (·.id)).Nodup) :
    (∀ i sr kr, sem.find? (fun e => e.id == i) = some sr →
        kw.find? (fun e => e.id == i) = some kr →
        (mergeDict sem kw).find? (fun e => e.id == i) =
          some { sr with
            final_score := max sr.final_score kr.final_score * hybridBoost,
            match_reason := "hybrid_match" }) ∧
    (∀ i sr, sem.find? (fun e => e.id == i) = some sr →
        kw.find? (fun e => e.id == i) = none →
        (mergeDict sem kw).find? (fun e => e.id == i) = some sr) ∧
    (∀ i kr, sem.find? (fun e => e.id == i) = none →
        kw.find? (fun e => e.id == i) = some kr →
        (mergeDict sem kw).find? (fun e => e.id == i) = some kr) ∧
    ((merge_results sem kw limit).map (·.id)).Nodup := by
  have hsem : sem.foldl mergeInsertSem [] = sem := by
    have := foldl_mergeInsertSem sem [] hs (fun r _ => rfl)
    simpa using this
  have hdict : mergeDict sem kw = kw.foldl mergeUpdateKw sem := by
    rw [mergeDict, hsem]
  refine ⟨?_, ?_, ?_, ?_⟩
  · intro i sr kr hfs hfk
    rw [hdict, find_foldl_updateKw kw sem i hk, hfk, hfs]
    rfl
  · intro i sr hfs hfk
    rw [hdict, find_foldl_updateKw kw sem i hk, hfk, hfs]
  · intro i kr hfs hfk
    rw [hdict, find_foldl_updateKw kw sem i hk, hfk, hfs]
  · have h1 : ((mergeDict sem kw).map (·.id)).Nodup := by
      rw [hdict]
      exact nodup_foldl_updateKw kw sem hs
    have hperm : List.Perm
        (((mergeDict sem kw).mergeSort
            (fun a b => decide (b.final_score ≤ a.final_score))).map (·.id))
        ((mergeDict sem kw).map (·.id)) :=
      List.Perm.map _ (List.mergeSort_perm _ _)
    have h2 := (List.Perm.nodup_iff hperm).mpr h1
    rw [merge_results, List.map_take]
    exact List.Nodup.sublist (List.take_sublist _ _) h2

/-- The semantic-pass entry of the spec's worked example (final 0.84). -/
def semEx : SResult :=
  { id := 1, similarity_score := 3/4, quality_boost := 9/100,
    final_score := 21/25, match_reason := "semantic_match" }

/-- The keyword-pass entry of the spec's worked example (final 0.59). -/
def kwEx : SResult :=
  { id := 1, similarity_score := 1/2, quality_boost := 6/25,
    final_score := 59/100, match_reason := "keyword_match" }

/-- Witness for C8: semantic final 0.84 and keyword final 0.59 merge to
`0.84 * 1.15 = 0.966` with reason `"hybrid_match"`. -/
theorem hybrid_merge_rule_witness :
    (mergeDict [semEx] [kwEx]).find? (fun e => e.id == 1) =
      some { semEx with
        final_score := max semEx.final_score kwEx.final_score * hybridBoost,
        match_reason := "hybrid_match" } ∧
    max semEx.final_score kwEx.final_score * hybridBoost = 483/500 :=
  ⟨(hybrid_merge_rule [semEx] [kwEx] 20 (by decide) (by decide)).1 1 semEx
      kwEx (by rfl) (by rfl),
   by norm_num [semEx, kwEx, hybridBoost]⟩

/-! ### C10: zero-token keyword search and the score range -/

/-- With zero query tokens, scoring the first resource raises at once. -/
theorem keywordResults_nil_tokens (r : DBResource) (rest : List DBResource) :
    keywordResults [] (r :: rest) =
      .error "ZeroDivisionError: division by zero" := rfl

/-- C10: if the query tokenizes to zero tokens and at least one active
resource survives the (vacuous) keyword filter, `_keyword_search` divides by
the token count 0 and raises `ZeroDivisionError`; `hybrid_search` calls it
unguarded, so the error escapes to the caller.  For a query with at least
one token, every keyword score `(titleHits*0.6 + descHits*0.4)/tokenCount`
lies in `[0, 1]`. -/
theorem keyword_zero_division_and_range (sem : List SResult) :
    (∀ (query : String) (db : List DBResource) (limit : Nat),
        pySplitWs (pyLower query) = [] →
        ((db.filter (fun r => r.is_active)).filter
            (kwFilter (pySplitWs (pyLower query)))).take limit ≠ [] →
        keyword_search query db limit =
          .error "ZeroDivisionError: division by zero" ∧
        hybrid_search sem query db limit =
          .error "ZeroDivisionError: division by zero") ∧
    (∀ (keywords : List String) (r : DBResource) (s : ℚ),
        keywords ≠ [] → keywordScoreOf keywords r = .ok s →
        0 ≤ s ∧ s ≤ 1) := by
  constructor
  · intro query db limit hq hne
    have h1 : keyword_search query db limit =
        .error "ZeroDivisionError: division by zero" := by
      simp only [keyword_search]
      rw [hq] at hne ⊢
      rcases hqs : ((db.filter (fun r => r.is_active)).filter
          (kwFilter [])).take limit with _ | ⟨r, rest⟩
      · exact absurd hqs hne
      · rw [hqs]
        exact keywordResults_nil_tokens r rest
    refine ⟨h1, ?_⟩
    unfold hybrid_search
    rw [h1]
    rfl
  · intro keywords r s hkne hsc
    unfold keywordScoreOf at hsc
    have hlen : keywords.length ≠ 0 :=
      fun h => hkne (List.length_eq_zero.mp h)
    rw [if_neg hlen] at hsc
    cases hsc
    have h1 : keywords.countP (fun kw => pyContains (pyLower r.title) kw) ≤
        keywords.length := List.countP_le_length _
    have h2 : keywords.countP
        (fun kw => pyContains (pyLower r.description) kw) ≤
        keywords.length := List.countP_le_length _
    have hn : (0:ℚ) < (keywords.length : ℚ) := by
      exact_mod_cast Nat.pos_of_ne_zero hlen
    constructor
    · apply div_nonneg _ (le_of_lt hn)
      positivity
    · rw [div_le_one hn]
      have c1 : ((keywords.countP
          (fun kw => pyContains (pyLower r.title) kw) : ℕ) : ℚ) ≤
          (keywords.length : ℚ) := by exact_mod_cast h1
      have c2 : ((keywords.countP
          (fun kw => pyContains (pyLower r.description) kw) : ℕ) : ℚ) ≤
          (keywords.length : ℚ) := by exact_mod_cast h2
      linarith

/-- An active catalog row for the C10 witness. -/
def dbResEx : DBResource :=
  { id := 1, title := "Intro to Biology", description := "", keywords := "",
    subject := "", is_active := true, overall_quality_score := 4 }

/-- Witness for C10: the empty query raises out of both `_keyword_search`
and `hybrid_search` against a one-row catalog, and the one-token query
"biology" scores 3/5 which lies in `[0, 1]`. -/
theorem keyword_zero_division_and_range_witness :
    (keyword_search "" [dbResEx] 20 =
        .error "ZeroDivisionError: division by zero" ∧
     hybrid_search [] "" [dbResEx] 20 =
        .error "ZeroDivisionError: division by zero") ∧
    (0 ≤ (3/5 : ℚ) ∧ (3/5 : ℚ) ≤ 1) :=
  ⟨(keyword_zero_division_and_range []).1 "" [dbResEx] 20 rfl (by decide),
   (keyword_zero_division_and_range []).2 ["biology"] dbResEx (3/5)
     (by decide)
     (by
       have ht : (["biology"].countP
           (fun kw => pyContains (pyLower dbResEx.title) kw)) = 1 := by
         decide
       have hd : (["biology"].countP
           (fun kw => pyContains (pyLower dbResEx.description) kw)) = 0 := by
         decide
       simp only [keywordScoreOf]
       rw [if_neg (by decide : ¬(["biology"] : List String).length = 0),
         ht, hd]
       norm_num)⟩

end OERPhoenix
